import Mathlib

/-!
Verification of the skir Java code generator.

This file gives a shallow embedding, in Lean, of the parts of the generator
that the verified properties are about:

* the `Namer` (field-name and class-name resolution, file `naming.ts`),
* the `TypeSpeller` (`getJavaType`, `getSerializerExpression`),
* the struct-emission blocks of `JavaSourceFileGenerator.writeClassForStruct`
  (DEFAULT constructor, getters, staged-builder interfaces, and the static
  serializer-finalization block),
* `getDefaultExpression` and `toFrozenExpression`,
* the layout engine `joinLinesAndFixFormatting`, and
* `toJavaStringLiteral`.

Emission is modelled at the granularity of `push` calls: each generator block
becomes a function returning the list of pushed strings (in order).  JavaScript
strings are modelled as Lean `String`s and, where JS string methods are needed
(trim, split, regexes on character classes), as structurally recursive
functions on `List Char` so that all definitions compute.

Modelling notes:

* The repository contains two near-duplicate generator variants.  All
  definitions here are translated from the skir variant (the `TypeSpeller`
  and the `JavaSourceFileGenerator` of `type_speller.ts`, and the `Namer` of
  the unnamed naming file).
* The primitive kind union: the `TypeSpeller` switches exhaustively over
  bool, int32, int64, hash64, float32, float64, timestamp, string, bytes,
  while `getDefaultExpression` / `toFrozenExpression` write the case label
  `uint64` where the `TypeSpeller` writes `hash64` (a leftover of the rename
  from the older variant, which called this wire type `uint64`).  The model
  uses one constructor `hash64` for this primitive and translates the
  `uint64` case labels of those two switches to it.
* `fields.sort((a, b) => a.name.text.localeCompare(b.name.text))` is modelled
  as a stable sort by lexicographic (code-point) order on names; for the
  ASCII identifiers of schema field names `localeCompare` agrees with this
  order.  JS `Array.prototype.sort` is stable, as is `List.insertionSort`.
* `convertCase` comes from the external `skir-internal` library (an external
  collaborator of this repository); it is modelled for its documented use on
  lower_underscore schema identifiers.
-/

namespace SkirJavaGen

/-! ## Character and string utilities -/

/-- Left curly bracket character (kept out of string literals). -/
def lcurly : Char := Char.ofNat 123

/-- Right curly bracket character (kept out of string literals). -/
def rcurly : Char := Char.ofNat 125

/-- Whitespace test used to model the JS `\s` character class and
`String.prototype.trim` on the ASCII text handled by the generator. -/
def isWSChar (c : Char) : Bool :=
  c = ' ' || c = '\t' || c = '\n' || c = '\r' || c = Char.ofNat 11 || c = Char.ofNat 12

/-- Model of JS `line.trim()`. -/
def jsTrim (l : List Char) : List Char :=
  ((l.dropWhile isWSChar).reverse.dropWhile isWSChar).reverse

/-- Model of JS `line.trimEnd()`. -/
def jsTrimEnd (l : List Char) : List Char :=
  (l.reverse.dropWhile isWSChar).reverse

/-- Model of JS `s.split(sep)` for a single separator character. -/
def splitOnChar (sep : Char) : List Char → List (List Char)
  | [] => [[]]
  | c :: rest =>
    if c = sep then [] :: splitOnChar sep rest
    else
      match splitOnChar sep rest with
      | [] => [[c]]
      | h :: t => (c :: h) :: t

/-- Model of JS `Array.prototype.join(sep)`. -/
def jsJoin (sep : String) : List String → String
  | [] => ""
  | [s] => s
  | s :: s2 :: rest => s ++ sep ++ jsJoin sep (s2 :: rest)

/-- Lexicographic (code-point) comparison of character lists; models the
order `localeCompare` induces on the plain ASCII identifiers that occur as
schema field names. -/
def lexLe : List Char → List Char → Bool
  | [], _ => true
  | _ :: _, [] => false
  | a :: as, b :: bs => if a = b then lexLe as bs else decide (a < b)

/-- Whether `pat` occurs as a contiguous substring of `l`. -/
def hasSubstring (pat : List Char) : List Char → Bool
  | [] => pat.isEmpty
  | c :: t => pat.isPrefixOf (c :: t) || hasSubstring pat t

/-! ## Schema data model (owned by the upstream `skir-internal` library) -/

/-- The primitive kinds of the resolved-type union (see the modelling note on
`hash64` at the top of this file). -/
inductive Primitive where
  | bool
  | int32
  | int64
  | hash64
  | float32
  | float64
  | timestamp
  | string
  | bytes
deriving DecidableEq

/-- `ResolvedType`: a resolved schema type.  An array may carry a key:
`{path, keyType}`, where the path is modelled by the list of the path fields'
declared names (`f.name.text`). -/
inductive ResolvedType : Type where
  | primitive (p : Primitive)
  | record (key : String)
  | array (item : ResolvedType) (key : Option (List String × ResolvedType))
  | optional (other : ResolvedType)

/-- `TypeFlavor = "initializer" | "frozen" | "frozen-key"`. -/
inductive TypeFlavor where
  | initializer
  | frozen
  | frozenKey
deriving DecidableEq

/-- `record.recordType`: struct or enum. -/
inductive RecordType where
  | struct
  | enum
deriving DecidableEq

/-- The part of a `RecordLocation` the modelled functions read: the record's
kind, the names (`name.text`) of its ancestry chain (last element is the
record itself), and the owning module path. -/
structure RecordLocation where
  recordType : RecordType
  recordAncestors : List String
  modulePath : String

/-- One piece of a `Doc`. -/
inductive DocPiece where
  | text (t : String)
  | reference (refRangeText : String)

/-- A documentation value attached to records and fields. -/
structure Doc where
  pieces : List DocPiece

/-- `field.isRecursive`: absent/none, or "hard". -/
inductive RecursionMarker where
  | none
  | hard
deriving DecidableEq

/-- A struct field: declared name (`name.text`), resolved type, field number,
recursion marker, documentation. -/
structure Field where
  name : String
  type : ResolvedType
  number : Nat
  isRecursive : RecursionMarker
  doc : Doc

/-- The record map `recordMap.get(key)!` is modelled as a total function, per
the upstream invariant that every referenced key is present. -/
def RecordMap : Type := String → RecordLocation

/-! ## convertCase (external `skir-internal` library)

Modelled for lower_underscore schema identifiers: words are separated by
underscores; camel conversions capitalize the first letter of each word
(except the first word for lowerCamel). -/

/-- Capitalize the first character of a word. -/
def capitalizeWord : List Char → List Char
  | [] => []
  | c :: cs => c.toUpper :: cs

/-- Model of `convertCase(s, "UpperCamel")`. -/
def convertCaseUpperCamel (s : String) : String :=
  String.mk ((splitOnChar '_' s.data).flatMap capitalizeWord)

/-- Model of `convertCase(s, "lowerCamel")`. -/
def convertCaseLowerCamel (s : String) : String :=
  match splitOnChar '_' s.data with
  | [] => ""
  | w :: ws => String.mk (w ++ ws.flatMap capitalizeWord)

/-! ## Namer (naming file of the skir generator) -/

/-- `JAVA_HARD_KEYWORDS`. -/
def JAVA_HARD_KEYWORDS : List String :=
  ["abstract", "assert", "boolean", "break", "byte", "case", "catch", "char",
   "class", "const", "continue", "default", "do", "double", "else", "enum",
   "exports", "extends", "false", "final", "finally", "float", "for", "goto",
   "if", "implements", "import", "instanceof", "int", "interface", "long",
   "module", "native", "new", "null", "package", "private", "protected",
   "public", "return", "short", "static", "strictfp", "super", "switch",
   "synchronized", "this", "throw", "throws", "transient", "true", "try",
   "void", "volatile", "while", "with", "yield"]

/-- `TOP_LEVEL_PACKAGE_NAMES`. -/
def TOP_LEVEL_PACKAGE_NAMES : List String :=
  ["build", "java", "kotlin", "land", "okio"]

/-- `JAVA_OBJECT_SYMBOLS`. -/
def JAVA_OBJECT_SYMBOLS : List String :=
  ["clone", "equals", "finalize", "getClass", "hashCode", "notify",
   "notifyAll", "toString", "wait"]

/-- `GENERATED_STRUCT_SYMBOLS`. -/
def GENERATED_STRUCT_SYMBOLS : List String :=
  ["builder", "partialBuilder", "toBuilder"]

/-- `Namer.genPackageFirstName`: `"skirout"` when the package prefix is empty,
else `packagePrefix.split(".")[0]!`. -/
def genPackageFirstName (pkg : String) : String :=
  if pkg.length ≤ 0 then "skirout"
  else String.mk (pkg.data.takeWhile (fun c => c ≠ '.'))

/-- `Namer.structFieldToJavaName` (taking the field's declared name). -/
def structFieldToJavaName (pkg : String) (skirName : String) : String :=
  let lowerCamel := convertCaseLowerCamel skirName
  let nameConflict :=
    JAVA_HARD_KEYWORDS.contains lowerCamel ||
    TOP_LEVEL_PACKAGE_NAMES.contains lowerCamel ||
    JAVA_OBJECT_SYMBOLS.contains lowerCamel ||
    GENERATED_STRUCT_SYMBOLS.contains lowerCamel ||
    lowerCamel == genPackageFirstName pkg
  if nameConflict then lowerCamel ++ "_" else lowerCamel

/-- Lowercase-letter test, the `[a-z]` character class. -/
def isLowerAZ (c : Char) : Bool := 'a' ≤ c && c ≤ 'z'

/-- Model of the regex test `/[^a-z]Wrapper$/.test(name)`: the name ends in
"Wrapper" and the character immediately before that suffix exists and is not
a lowercase letter. -/
def wrapperReTest (name : String) : Bool :=
  let cs := name.data
  decide (8 ≤ cs.length) &&
    (List.drop (cs.length - 7) cs == "Wrapper".data) &&
    !(isLowerAZ (cs.getD (cs.length - 8) ' '))

/-- The rename applied to one ancestry-chain entry before the uniqueness
loop of `Namer.getClassName` (`name += "_"` under the listed conditions). -/
def renameBase (name : String) (i : Nat) : String :=
  if name == "Kind" || name == "Builder" || wrapperReTest name ||
      (i == 0 && (name == "Constants" || name == "Methods")) then
    name ++ "_"
  else name

/-- Largest length of a string in the list (used as a termination measure for
the `while (seenNames.has(name)) name += "_";` loop). -/
def maxStrLen (l : List String) : Nat := l.foldr (fun s m => max s.length m) 0

theorem le_maxStrLen {s : String} {l : List String} (h : s ∈ l) :
    s.length ≤ maxStrLen l := by
  induction l with
  | nil => cases h
  | cons a t ih =>
    rcases List.mem_cons.mp h with rfl | h2
    · exact Nat.le_max_left _ _
    · exact le_trans (ih h2) (Nat.le_max_right _ _)

/-- The uniqueness loop of `Namer.getClassName`:
`while (seenNames.has(name)) name += "_";`. -/
def disambiguate (seen : List String) (name : String) : String :=
  if name ∈ seen then disambiguate seen (name ++ "_") else name
termination_by maxStrLen seen + 1 - name.length
decreasing_by
  have h1 : name.length ≤ maxStrLen seen := le_maxStrLen (by assumption)
  have h2 : (name ++ "_").length = name.length + 1 := by
    simp [String.length_append]
    decide
  omega

/-- The ancestry-chain loop of `Namer.getClassName`, accumulating the index
`i` and the `seenNames` set (modelled as the list of previous parts). -/
def classNameLoop : List String → Nat → List String → List String
  | [], _, _ => []
  | a :: rest, i, seenNames =>
    let name := disambiguate seenNames (renameBase a i)
    name :: classNameLoop rest (i + 1) (name :: seenNames)

/-- The `parts` array built by `Namer.getClassName` for an ancestry chain. -/
def classNameParts (recordAncestors : List String) : List String :=
  classNameLoop recordAncestors 0 []

/-- The `importPath` computation of `Namer.getClassName`: strip a trailing
".skir", turn a leading "@" into "external/", then globally replace every
hyphen by an underscore and every slash by a dot. -/
def importPathOf (path : String) : String :=
  let cs := path.data
  let cs1 := if ".skir".data.isSuffixOf cs then cs.take (cs.length - 5) else cs
  let cs2 := if cs1.head? == some '@' then "external/".data ++ cs1.tail else cs1
  let cs3 := cs2.map (fun c => if c = '-' then '_' else c)
  String.mk (cs3.map (fun c => if c = '/' then '.' else c))

/-- `Namer.getClassName(...).name`: the last part (`parts.at(-1)!`; ancestry
chains are non-empty by upstream invariant). -/
def getClassNameSimple (rl : RecordLocation) : String :=
  (classNameParts rl.recordAncestors).getLastD ""

/-- `Namer.getClassName(...).qualifiedName`:
`` `${packagePrefix}skirout.${importPath}.${parts.join(".")}` ``. -/
def getClassNameQualified (pkg : String) (rl : RecordLocation) : String :=
  pkg ++ "skirout." ++ importPathOf rl.modulePath ++ "." ++
    jsJoin "." (classNameParts rl.recordAncestors)

/-! ## TypeSpeller -/

/-- `TypeSpeller.getJavaType(type, flavor, mustBeObject?)`.  The `mustBeObject`
flag is modelled as a `Bool`. -/
def getJavaType (rm : RecordMap) (pkg : String) :
    ResolvedType → TypeFlavor → Bool → String
  | .record key, flavor, _ =>
    let rl := rm key
    let className := getClassNameQualified pkg rl
    match rl.recordType with
    | .struct => className
    | .enum =>
      match flavor with
      | .initializer | .frozen => className
      | .frozenKey => className ++ ".Kind"
  | .array item key, flavor, _ =>
    let itemType := getJavaType rm pkg item flavor true
    match flavor with
    | .initializer => "java.lang.Iterable<? extends " ++ itemType ++ ">"
    | .frozen | .frozenKey =>
      match key with
      | some (_, keyType) =>
        let javaKeyType := getJavaType rm pkg keyType .frozenKey true
        "build.skir.KeyedList<" ++ itemType ++ ", " ++ javaKeyType ++ ">"
      | none => "java.util.List<" ++ itemType ++ ">"
  | .optional other, flavor, _ =>
    let otherType := getJavaType rm pkg other flavor true
    "java.util.Optional<" ++ otherType ++ ">"
  | .primitive p, _, mustBeObject =>
    if mustBeObject then
      match p with
      | .bool => "java.lang.Boolean"
      | .int32 => "java.lang.Integer"
      | .int64 | .hash64 => "java.lang.Long"
      | .float32 => "java.lang.Float"
      | .float64 => "java.lang.Double"
      | .timestamp => "java.time.Instant"
      | .string => "java.lang.String"
      | .bytes => "okio.ByteString"
    else
      match p with
      | .bool => "boolean"
      | .int32 => "int"
      | .int64 | .hash64 => "long"
      | .float32 => "float"
      | .float64 => "double"
      | .timestamp => "java.time.Instant"
      | .string => "java.lang.String"
      | .bytes => "okio.ByteString"

/-- `TypeSpeller.getSerializerExpression(type)`. -/
def getSerializerExpression (rm : RecordMap) (pkg : String) :
    ResolvedType → String
  | .primitive p =>
    match p with
    | .bool => "build.skir.Serializers.bool()"
    | .int32 => "build.skir.Serializers.int32()"
    | .int64 => "build.skir.Serializers.int64()"
    | .hash64 => "build.skir.Serializers.javaHash64()"
    | .float32 => "build.skir.Serializers.float32()"
    | .float64 => "build.skir.Serializers.float64()"
    | .timestamp => "build.skir.Serializers.timestamp()"
    | .string => "build.skir.Serializers.string()"
    | .bytes => "build.skir.Serializers.bytes()"
  | .array item key =>
    match key with
    | some (path, _) =>
      let keyChain := jsJoin "." path
      let pathS :=
        jsJoin "." (path.map (fun f => structFieldToJavaName pkg f ++ "()"))
      "build.skir.internal.ListSerializerKt.keyedListSerializer(\n" ++
        getSerializerExpression rm pkg item ++
        ",\n\"" ++ keyChain ++ "\",\n(it) -> it." ++ pathS ++ "\n)"
    | none =>
      "build.skir.Serializers.list(\n" ++
        getSerializerExpression rm pkg item ++ "\n)"
  | .optional other =>
    "build.skir.Serializers.javaOptional(\n" ++
      getSerializerExpression rm pkg other ++ "\n)"
  | .record key =>
    getClassNameQualified pkg (rm key) ++ ".SERIALIZER"

/-! ## Documentation rendering (`docToCommentText`, `commentify`) -/

/-- `docToCommentText(doc)`: concatenate text pieces; a reference piece
renders as its range text without its first and last character, wrapped in
backticks. -/
def docToCommentText (doc : Doc) : String :=
  jsJoin "" (doc.pieces.map (fun p =>
    match p with
    | .text t => t
    | .reference r => "`" ++ String.mk (r.data.drop 1).dropLast ++ "`"))

/-- Global replacement of runs of three or more newlines by two newlines
(the same regex is used by `commentify` and by the layout cleanup). -/
def collapseNewlines : List Char → List Char
  | '\n' :: '\n' :: '\n' :: rest =>
    '\n' :: '\n' :: collapseNewlines (rest.dropWhile (fun x => x = '\n'))
  | c :: rest => c :: collapseNewlines rest
  | [] => []
termination_by l => l.length
decreasing_by
  · have h1 := (List.dropWhile_sublist (l := rest) (fun x => x = '\n')).length_le
    simp only [List.length_cons]
    omega
  · simp only [List.length_cons]
    omega

/-- First-occurrence replacement of "*/" by "* /" (`text.replace("*/", "* /")`). -/
def replaceFirstCloseComment : List Char → List Char
  | '*' :: '/' :: rest => '*' :: ' ' :: '/' :: rest
  | c :: rest => c :: replaceFirstCloseComment rest
  | [] => []

/-- `commentify(textOrLines)` for the array form used by the struct emitter:
join with newlines, trim, collapse newline runs, guard "*/", then render as a
single-line or block javadoc comment. -/
def commentify (textOrLines : List String) : String :=
  let text := String.mk
    (replaceFirstCloseComment (collapseNewlines (jsTrim (jsJoin "\n" textOrLines).data)))
  if text.length ≤ 0 then ""
  else
    let ls := splitOnChar '\n' text.data
    match ls with
    | [_] => "/** " ++ text ++ " */\n"
    | _ =>
      jsJoin ""
        (["/**\n"] ++ ls.map (fun line => " * " ++ String.mk line ++ "\n") ++ [" */\n"])

/-! ## `getDefaultExpression` and `toFrozenExpression` -/

/-- `JavaSourceFileGenerator.getDefaultExpression(type)`. -/
def getDefaultExpression (rm : RecordMap) (pkg : String) : ResolvedType → String
  | .primitive p =>
    match p with
    | .bool => "false"
    | .int32 | .int64 | .hash64 => "0"
    | .float32 => "0.0f"
    | .float64 => "0.0"
    | .timestamp => "java.time.Instant.EPOCH"
    | .string => "\"\""
    | .bytes => "okio.ByteString.EMPTY"
  | .array _ key =>
    if key.isSome then "build.skir.internal.FrozenListKt.emptyKeyedList()"
    else "build.skir.internal.FrozenListKt.emptyFrozenList()"
  | .optional _ => "java.util.Optional.empty()"
  | .record key =>
    let rl := rm key
    let kotlinType := getJavaType rm pkg (.record key) .frozen false
    match rl.recordType with
    | .struct => kotlinType ++ ".DEFAULT"
    | .enum => kotlinType ++ ".UNKNOWN"

/-- The `nullability` argument of `toFrozenExpression`. -/
inductive Nullability where
  | canBeNull
  | neverNull
deriving DecidableEq

/-- `JavaSourceFileGenerator.toFrozenExpression(inputExpr, type, nullability, it)`. -/
def toFrozenExpression (pkg : String) :
    String → ResolvedType → Nullability → String → String
  | inputExpr, .primitive p, nullability, _ =>
    match p with
    | .bool | .int32 | .int64 | .hash64 | .float32 | .float64 => inputExpr
    | .timestamp | .string | .bytes =>
      if nullability = .canBeNull then
        "java.util.Objects.requireNonNull(" ++ inputExpr ++ ")"
      else inputExpr
  | inputExpr, .array item key, _, it =>
    let itemToFrozenExpr := toFrozenExpression pkg it item .canBeNull (it ++ "_")
    let frozenListKt := "build.skir.internal.FrozenListKt"
    match key with
    | some (path, _) =>
      let pathS :=
        jsJoin "." (path.map (fun f => structFieldToJavaName pkg f ++ "()"))
      if itemToFrozenExpr == it then
        frozenListKt ++ ".toKeyedList(\n" ++ inputExpr ++ ",\n\"" ++ pathS ++
          "\",\n(" ++ it ++ ") -> " ++ it ++ "." ++ pathS ++ "\n)"
      else
        frozenListKt ++ ".toKeyedList(\n" ++ inputExpr ++ ",\n\"" ++ pathS ++
          "\",\n(" ++ it ++ ") -> " ++ it ++ "." ++ pathS ++ ",\n(" ++ it ++
          ") -> " ++ itemToFrozenExpr ++ "\n)"
    | none =>
      if itemToFrozenExpr == it then
        frozenListKt ++ ".toFrozenList(" ++ inputExpr ++ ")"
      else
        frozenListKt ++ ".toFrozenList(\n" ++ inputExpr ++ ",\n(" ++ it ++
          ") -> " ++ itemToFrozenExpr ++ "\n)"
  | inputExpr, .optional other, _, it =>
    let otherExpr := toFrozenExpression pkg it other .neverNull (it ++ "_")
    inputExpr ++ ".map(\n(" ++ it ++ ") -> " ++ otherExpr ++ "\n)"
  | inputExpr, .record _, nullability, _ =>
    if nullability = .canBeNull then
      "java.util.Objects.requireNonNull(" ++ inputExpr ++ ")"
    else inputExpr

/-! ## `toJavaStringLiteral` -/

/-- The character class of the global replacement regex in
`toJavaStringLiteral`: backslash, double quote, U+0000 to U+001F, and U+007F
to U+00FF. -/
def matchesEscapeClass (n : Nat) : Bool :=
  n == 92 || n == 34 || decide (n ≤ 31) || (decide (127 ≤ n) && decide (n ≤ 255))

/-- Lowercase hexadecimal digit, as produced by JS `n.toString(16)`. -/
def hexDigitChar (d : Nat) : Char :=
  if d < 10 then Char.ofNat (48 + d) else Char.ofNat (87 + d)

/-- Accumulator loop of the hexadecimal rendering; the first argument is
fuel (the value itself suffices, since dividing by 16 reaches zero within
that many steps). -/
def toHexAux : Nat → Nat → List Char → List Char
  | 0, _, acc => acc
  | _, 0, acc => acc
  | fuel + 1, n + 1, acc =>
    toHexAux fuel ((n + 1) / 16) (hexDigitChar ((n + 1) % 16) :: acc)

/-- Model of JS `n.toString(16)` for natural numbers. -/
def toHexStr (n : Nat) : List Char :=
  if n = 0 then ['0'] else toHexAux n n []

/-- Model of JS `s.padStart(4, "0")`. -/
def padStart4 (l : List Char) : List Char :=
  List.replicate (4 - l.length) '0' ++ l

/-- The replacement applied to one matched character of `toJavaStringLiteral`:
a named escape for quote, backslash, backspace, form feed, newline, carriage
return and tab, and a `\uXXXX` escape otherwise. -/
def escapeChar (c : Char) : List Char :=
  if matchesEscapeClass c.toNat then
    if c = '"' then ['\\', '"']
    else if c = '\\' then ['\\', '\\']
    else if c = Char.ofNat 8 then ['\\', 'b']
    else if c = Char.ofNat 12 then ['\\', 'f']
    else if c = '\n' then ['\\', 'n']
    else if c = '\r' then ['\\', 'r']
    else if c = '\t' then ['\\', 't']
    else '\\' :: 'u' :: padStart4 (toHexStr c.toNat)
  else [c]

/-- The escaped interior of the literal produced by `toJavaStringLiteral`
(the result of the global character-class replacement). -/
def escapeInterior (input : String) : List Char :=
  input.data.flatMap escapeChar

/-- `toJavaStringLiteral(input)`: the escaped input wrapped in double
quotes. -/
def toJavaStringLiteral (input : String) : String :=
  "\"" ++ String.mk (escapeInterior input) ++ "\""

/-! ## Struct emission blocks of `writeClassForStruct` -/

/-- The comparison used by
`fields.sort((a, b) => a.name.text.localeCompare(b.name.text))`. -/
def fieldLe (a b : Field) : Bool := lexLe a.name.data b.name.data

/-- The sorted copy `[...record.fields].sort(...)` made at the top of
`writeClassForStruct`; every emission loop below iterates this list. -/
def sortFields (fields : List Field) : List Field :=
  @List.insertionSort Field (fun a b => fieldLe a b = true)
    (fun a b => Bool.decEq (fieldLe a b) true) fields

/-- One line of the DEFAULT-instance constructor body: a "hard" recursive
field is initialized to the null sentinel, any other field to its default
expression. -/
def defaultCtorFieldLine (rm : RecordMap) (pkg : String) (f : Field) : String :=
  let fieldName := structFieldToJavaName pkg f.name
  if f.isRecursive = .hard then "this." ++ fieldName ++ " = null;\n"
  else "this." ++ fieldName ++ " = " ++ getDefaultExpression rm pkg f.type ++ ";\n"

/-- The pushed strings of the DEFAULT-instance block (zero-argument private
constructor plus the DEFAULT constant declaration). -/
def defaultCtorBlockLines (rm : RecordMap) (pkg className : String)
    (sortedFields : List Field) : List String :=
  ["private " ++ className ++ "() \x7b\n"] ++
    sortedFields.map (defaultCtorFieldLine rm pkg) ++
    ["this._u = null;\n", "\x7d\n\n",
     "/** Instance with all fields set to their default values. */\n",
     "public static final " ++ className ++ " DEFAULT = new " ++ className ++
       "();\n\n"]

/-- The pushed strings of one public getter: a "hard" recursive field's body
substitutes the default expression when the stored slot is null; any other
field returns the stored slot unconditionally. -/
def getterBlockLines (rm : RecordMap) (pkg : String) (f : Field) : List String :=
  let fieldName := structFieldToJavaName pkg f.name
  let t := getJavaType rm pkg f.type .frozen false
  [commentify [docToCommentText f.doc],
   "public " ++ t ++ " " ++ fieldName ++ "() \x7b\n"] ++
    (if f.isRecursive = .hard then
      ["if (this." ++ fieldName ++ " != null) \x7b\n",
       "return this." ++ fieldName ++ ";\n",
       "\x7d else \x7b\n",
       "return " ++ getDefaultExpression rm pkg f.type ++ ";\n",
       "\x7d\n"]
    else
      ["return this." ++ fieldName ++ ";\n"]) ++
    ["\x7d\n\n"]

/-- The declared return type of the static `builder()` factory:
`Builder_At<first sorted field>` when there is a first field, else
`Builder_Done` (`fields[0]` is falsy for an empty list). -/
def builderFactoryRetType (sortedFields : List Field) : String :=
  match sortedFields.head? with
  | some firstField => "Builder_At" ++ convertCaseUpperCamel firstField.name
  | none => "Builder_Done"

/-- The data of one emitted `Builder_At...` stage interface. -/
structure StageInterface where
  interfaceName : String
  doc : String
  setterName : String
  retType : String
  paramType : String
  paramName : String

/-- The `Builder_At...` interfaces emitted by the
`for (const [index, field] of fields.entries())` loop: one per sorted field,
whose setter's declared return type names the next field's stage interface,
or `Builder_Done` for the last field. -/
def builderAtInterfaces (rm : RecordMap) (pkg : String)
    (sortedFields : List Field) : List StageInterface :=
  sortedFields.mapIdx (fun index field =>
    let fieldName := structFieldToJavaName pkg field.name
    let nextField :=
      if index < sortedFields.length - 1 then sortedFields.get? (index + 1)
      else Option.none
    let upperCamelName := convertCaseUpperCamel field.name
    let retType :=
      match nextField with
      | some nf => "Builder_At" ++ convertCaseUpperCamel nf.name
      | none => "Builder_Done"
    { interfaceName := "Builder_At" ++ upperCamelName
      doc := commentify [docToCommentText field.doc]
      setterName := "set" ++ upperCamelName
      retType := retType
      paramType := getJavaType rm pkg field.type .initializer false
      paramName := fieldName })

/-- The pushed strings of one stage interface. -/
def stageInterfaceLines (s : StageInterface) : List String :=
  ["public interface " ++ s.interfaceName ++ " \x7b\n",
   s.doc,
   s.retType ++ " " ++ s.setterName ++ "(" ++ s.paramType ++ " " ++
     s.paramName ++ ");\n",
   "\x7d\n\n"]

/-- The pushed strings of the `Builder_Done` interface: its only member is
`build()`, returning the struct type. -/
def builderDoneLines (className : String) : List String :=
  ["public interface Builder_Done \x7b\n",
   className ++ " build();\n",
   "\x7d\n\n"]

/-- The pushed strings of one `_serializerImpl.addField(...)` call of the
static serializer-finalization block. -/
def addFieldCallLines (rm : RecordMap) (pkg : String) (f : Field) : List String :=
  let skirName := f.name
  let javadName := structFieldToJavaName pkg f.name
  ["_serializerImpl.addField(\n",
   "\"" ++ skirName ++ "\",\n",
   "\"\",\n",
   Nat.repr f.number ++ ",\n",
   getSerializerExpression rm pkg f.type ++ ",\n",
   toJavaStringLiteral (docToCommentText f.doc) ++ ",\n",
   "(it) -> it." ++ javadName ++ "(),\n",
   "(builder, v) -> \x7b\n",
   "builder." ++ javadName ++ " = v;\n",
   "return null;\n",
   "\x7d\n",
   ");\n"]

/-- The pushed strings of the static serializer-finalization block, iterating
the sorted field list, then the removed numbers. -/
def finalizeStructBlockLines (rm : RecordMap) (pkg : String)
    (sortedFields : List Field) (removedNumbers : List Nat) : List String :=
  ["static \x7b\n"] ++
    sortedFields.flatMap (addFieldCallLines rm pkg) ++
    removedNumbers.map (fun n =>
      "_serializerImpl.addRemovedNumber(" ++ Nat.repr n ++ ");\n") ++
    ["_serializerImpl.finalizeStruct();\n", "\x7d\n\n"]

/-- The static serializer-finalization block of a struct with the given
declared fields (sorted exactly as `writeClassForStruct` sorts them). -/
def structStaticBlockLines (rm : RecordMap) (pkg : String)
    (fields : List Field) (removedNumbers : List Nat) : List String :=
  finalizeStructBlockLines rm pkg (sortFields fields) removedNumbers

/-- The field numbers passed to successive `addField` calls of
`structStaticBlockLines` (one call per element of the sorted field list). -/
def structAddFieldNumberSeq (fields : List Field) : List Nat :=
  (sortFields fields).map (fun f => f.number)

/-- The wire names passed to successive `addField` calls of
`structStaticBlockLines`. -/
def structAddFieldWireNames (fields : List Field) : List String :=
  (sortFields fields).map (fun f => f.name)

/-! ## Layout engine (`joinLinesAndFixFormatting`) -/

/-- `getMatchingLeftBracket(r)` of the layout engine. -/
def getMatchingLeftBracket (r : Char) : Char :=
  if r = rcurly then lcurly
  else if r = ')' then '('
  else if r = ']' then '['
  else if r = '>' then '<'
  else r

/-- The four closing brackets handled by the first-character switch. -/
def isClosingBracket (c : Char) : Bool :=
  c = rcurly || c = ')' || c = ']' || c = '>'

/-- The pop loop `while (contextStack.pop() !== left) ...` of the
closing-bracket case: pops until the matching opening marker is removed and
throws when the stack is exhausted first.  The stack is modelled with its top
at the head. -/
def popUntilMatch (left : Char) : List Char → Except Unit (List Char)
  | [] => .error ()
  | top :: rest => if top = left then .ok rest else popUntilMatch left rest

/-- The per-line body of the layout loop: trims the line, handles the
first-character switch (closers pop, "." pushes a chain context), indents by
the remaining stack depth, appends the line, then handles the last-character
switch (openers push; ":"/"=" push a continuation context; ";"/"," pop a "."
or ":" context).  Comment lines skip the last-character switch. -/
def processLine (stack : List Char) (acc : List Char) (rawLine : List Char) :
    Except Unit (List Char × List Char) :=
  let line := jsTrim rawLine
  match line with
  | [] => .ok (stack, acc ++ ['\n'])
  | firstChar :: _ =>
    let stackE :=
      if isClosingBracket firstChar then
        popUntilMatch (getMatchingLeftBracket firstChar) stack
      else if firstChar = '.' then
        .ok (if stack.head? != some '.' then '.' :: stack else stack)
      else .ok stack
    match stackE with
    | .error e => .error e
    | .ok stack1 =>
      let indent :=
        List.replicate (2 * stack1.length) ' ' ++
          (if firstChar = '*' then [' '] else [])
      let acc1 := acc ++ indent ++ jsTrimEnd line ++ ['\n']
      if firstChar = '/' || firstChar = '*' then .ok (stack1, acc1)
      else
        let stack2 :=
          match line.getLast? with
          | some lastChar =>
            if lastChar = lcurly || lastChar = '(' || lastChar = '[' ||
                lastChar = '<' then
              lastChar :: stack1
            else if lastChar = ':' || lastChar = '=' then
              (if stack1.head? != some ':' then ':' :: stack1 else stack1)
            else if lastChar = ';' || lastChar = ',' then
              (if stack1.head? == some '.' || stack1.head? == some ':' then
                stack1.tail
              else stack1)
            else stack1
          | none => stack1
        .ok (stack2, acc1)

/-- The `for (let line of this.code.split("\n"))` loop: threads the context
stack and the accumulated result through `processLine`, aborting on the first
error. -/
def processLines : List Char → List Char → List (List Char) →
    Except Unit (List Char)
  | _, acc, [] => .ok acc
  | stack, acc, l :: rest =>
    match processLine stack acc l with
    | .error e => .error e
    | .ok (s1, a1) => processLines s1 a1 rest

/-- Global replacement of an opening bracket, one or more whitespace
characters and the matching closing bracket by the empty pair (the three
three regexes collapsing whitespace-only bracket pairs). -/
def collapseEmptyPair (lb rb : Char) : List Char → List Char
  | [] => []
  | c :: rest =>
    if c = lb then
      let ws := rest.takeWhile isWSChar
      let rem := rest.dropWhile isWSChar
      if !ws.isEmpty && rem.head? == some rb then
        lb :: rb :: collapseEmptyPair lb rb rem.tail
      else c :: collapseEmptyPair lb rb rest
    else c :: collapseEmptyPair lb rb rest
termination_by l => l.length
decreasing_by
  · have h1 := (List.dropWhile_sublist (l := rest) isWSChar).length_le
    have h2 := (List.tail_sublist (rest.dropWhile isWSChar)).length_le
    simp only [List.length_cons]
    omega
  · simp only [List.length_cons]
    omega
  · simp only [List.length_cons]
    omega

/-- Global replacement removing an empty line immediately following an open
curly bracket (regex: open curly, newline, spaces, captured; then a newline,
dropped). -/
def removeBlankAfterOpen : List Char → List Char
  | [] => []
  | [c] => [c]
  | c :: d :: rest2 =>
    if c = lcurly && d = '\n' then
      let sp := rest2.takeWhile (fun x => x = ' ')
      let rem := rest2.dropWhile (fun x => x = ' ')
      if rem.head? == some '\n' then
        lcurly :: '\n' :: (sp ++ removeBlankAfterOpen rem.tail)
      else c :: removeBlankAfterOpen (d :: rest2)
    else c :: removeBlankAfterOpen (d :: rest2)
termination_by l => l.length
decreasing_by
  · have h1 := (List.dropWhile_sublist (l := rest2) (fun x => x = ' ')).length_le
    have h2 := (List.tail_sublist (rest2.dropWhile (fun x => x = ' '))).length_le
    simp only [List.length_cons]
    omega
  · simp only [List.length_cons]
    omega
  · simp only [List.length_cons]
    omega

/-- Global replacement removing an empty line immediately preceding a closed
curly bracket (regex: a newline, dropped; then newline, spaces, close curly,
captured). -/
def removeBlankBeforeClose : List Char → List Char
  | [] => []
  | [c] => [c]
  | c :: d :: rest2 =>
    if c = '\n' && d = '\n' then
      let sp := rest2.takeWhile (fun x => x = ' ')
      let rem := rest2.dropWhile (fun x => x = ' ')
      if rem.head? == some rcurly then
        '\n' :: (sp ++ (rcurly :: removeBlankBeforeClose rem.tail))
      else c :: removeBlankBeforeClose (d :: rest2)
    else c :: removeBlankBeforeClose (d :: rest2)
termination_by l => l.length
decreasing_by
  · have h1 := (List.dropWhile_sublist (l := rest2) (fun x => x = ' ')).length_le
    have h2 := (List.tail_sublist (rest2.dropWhile (fun x => x = ' '))).length_le
    simp only [List.length_cons]
    omega
  · simp only [List.length_cons]
    omega
  · simp only [List.length_cons]
    omega

/-- The final replacement turning a trailing double newline into a single
newline. -/
def removeFinalDoubleNewline (l : List Char) : List Char :=
  match l.reverse with
  | '\n' :: '\n' :: _ => l.dropLast
  | _ => l

/-- The chain of global replacements applied to the joined result
(empty-pair collapapses, blank-line removal around curly brackets, coalescing
of consecutive empty lines, and the final trailing-newline cleanup). -/
def layoutCleanup (l : List Char) : List Char :=
  removeFinalDoubleNewline
    (collapseNewlines
      (removeBlankBeforeClose
        (removeBlankAfterOpen
          (collapseEmptyPair '[' ']'
            (collapseEmptyPair '(' ')'
              (collapseEmptyPair lcurly rcurly l))))))

/-- `JavaSourceFileGenerator.joinLinesAndFixFormatting()`, as a function of
the accumulated code: an exception of the line loop aborts the whole pass
with no output. -/
def joinLinesAndFixFormatting (code : String) : Except Unit String :=
  match processLines [] [] (splitOnChar '\n' code.data) with
  | .error e => .error e
  | .ok res => .ok (String.mk (layoutCleanup res))

/-! ## Spec-side definitions and concrete fixtures -/

/-- Claim-side rename condition for qualified class names, following the
claim's words: the ancestor's name is `Kind`, `Builder`, any name ending in
"Wrapper", or (at chain position zero) `Constants` or `Methods`.  Compared
against the source-side `renameBase`. -/
def renameBaseSpec (name : String) (i : Nat) : String :=
  if name == "Kind" || name == "Builder" || "Wrapper".data.isSuffixOf name.data ||
      (i == 0 && (name == "Constants" || name == "Methods")) then
    name ++ "_"
  else name

/-- Hexadecimal-digit test (digits and lowercase a-f), claim side. -/
def isHexB (c : Char) : Bool := "0123456789abcdef".data.contains c

/-- Claim-side safety test for an interior character of a Java string
literal: not a double quote, not a backslash, not in U+0000..U+001F and not
in U+007F..U+00FF. -/
def safeCharB (c : Char) : Bool :=
  !(c.toNat == 34) && !(c.toNat == 92) && !(decide (c.toNat ≤ 31)) &&
    !(decide (127 ≤ c.toNat) && decide (c.toNat ≤ 255))

/-- Claim-side well-formedness of the interior of a Java string literal: a
sequence of tokens, each either a safe plain character, a backslash named
escape, or a `\uXXXX` escape with four hexadecimal digits. -/
def wellEscapedB : List Char → Bool
  | [] => true
  | c :: rest =>
    if c = '\\' then
      match rest with
      | 'u' :: d1 :: d2 :: d3 :: d4 :: rest2 =>
        isHexB d1 && isHexB d2 && isHexB d3 && isHexB d4 && wellEscapedB rest2
      | e :: rest2 =>
        ['"', '\\', 'b', 'f', 'n', 'r', 't'].contains e && wellEscapedB rest2
      | [] => false
    else safeCharB c && wellEscapedB rest

/-- Shape test for the tail of a `\uXXXX` escape: exactly four hexadecimal
digits. -/
def uTail4B : List Char → Bool
  | [d1, d2, d3, d4] => isHexB d1 && isHexB d2 && isHexB d3 && isHexB d4
  | _ => false

/-- A record map for concrete instantiations: every key resolves to a
top-level struct `Foo` of module `structs.skir`. -/
def rmFoo : RecordMap := fun _ => ⟨.struct, ["Foo"], "structs.skir"⟩

/-- Empty documentation. -/
def emptyDoc : Doc := ⟨[]⟩

/-- Concrete field named "a" (int32, field number 2). -/
def fieldA : Field := ⟨"a", .primitive .int32, 2, .none, emptyDoc⟩

/-- Concrete field named "b" (int32, field number 1). -/
def fieldB : Field := ⟨"b", .primitive .int32, 1, .none, emptyDoc⟩

/-- Concrete "hard" recursive field of struct type. -/
def fieldHardR : Field := ⟨"r", .record "Foo", 1, .hard, emptyDoc⟩

/-- Placeholder stage-interface value (default for list lookups). -/
def dummyStage : StageInterface := ⟨"", "", "", "", "", ""⟩

/-- The keyed-array type of the concrete scenario: items of record type `k`,
key path `["id"]`, key type int32. -/
def keyedArrayOf (k : String) : ResolvedType :=
  .array (.record k) (some (["id"], .primitive .int32))

/-! ## Helper lemmas -/

theorem lexLe_trans : ∀ a b c : List Char,
    lexLe a b = true → lexLe b c = true → lexLe a c = true := by
  intro a
  induction a with
  | nil => intro b c _ _; rfl
  | cons x xs ih =>
    intro b c hab hbc
    cases b with
    | nil => simp [lexLe] at hab
    | cons y ys =>
      cases c with
      | nil => simp [lexLe] at hbc
      | cons z zs =>
        simp only [lexLe] at hab hbc ⊢
        by_cases hxy : x = y
        · subst hxy
          simp only [if_pos rfl] at hab
          by_cases hyz : x = z
          · subst hyz
            simp only [if_pos rfl] at hbc ⊢
            exact ih ys zs hab hbc
          · simp only [if_neg hyz] at hbc ⊢
            exact hbc
        · by_cases hyz : y = z
          · subst hyz
            simp only [if_neg hxy] at hab ⊢
            exact hab
          · simp only [if_neg hxy] at hab
            simp only [if_neg hyz] at hbc
            have h1 : x < y := of_decide_eq_true hab
            have h2 : y < z := of_decide_eq_true hbc
            have h3 : x < z := lt_trans h1 h2
            simp only [if_neg (ne_of_lt h3)]
            exact decide_eq_true h3

theorem lexLe_total : ∀ a b : List Char, lexLe a b = true ∨ lexLe b a = true := by
  intro a
  induction a with
  | nil => intro b; left; rfl
  | cons x xs ih =>
    intro b
    cases b with
    | nil => right; rfl
    | cons y ys =>
      by_cases hxy : x = y
      · subst hxy
        simpa only [lexLe, if_pos rfl] using ih ys
      · rcases lt_or_gt_of_ne hxy with h | h
        · left
          simp only [lexLe, if_neg hxy]
          exact decide_eq_true h
        · right
          simp only [lexLe, if_neg (Ne.symm hxy)]
          exact decide_eq_true h

theorem sortFields_sorted (fields : List Field) :
    List.Sorted (fun a b => fieldLe a b = true) (sortFields fields) := by
  haveI : IsTotal Field (fun a b => fieldLe a b = true) :=
    ⟨fun a b => lexLe_total a.name.data b.name.data⟩
  haveI : IsTrans Field (fun a b => fieldLe a b = true) :=
    ⟨fun a b c hab hbc => lexLe_trans _ _ _ hab hbc⟩
  exact List.sorted_insertionSort _ _

theorem sortFields_perm (fields : List Field) : (sortFields fields).Perm fields :=
  List.perm_insertionSort _ _

theorem disambiguate_not_mem (seen : List String) (name : String) :
    disambiguate seen name ∉ seen := by
  refine disambiguate.induct seen (fun n => disambiguate seen n ∉ seen) ?_ ?_ name
  · intro x hx ih
    rw [disambiguate, if_pos hx]
    exact ih
  · intro x hx
    rw [disambiguate, if_neg hx]
    exact hx

theorem disambiguate_underscores (seen : List String) (name : String) :
    ∃ k : Nat, disambiguate seen name = name ++ String.mk (List.replicate k '_') := by
  refine disambiguate.induct seen
    (fun n => ∃ k, disambiguate seen n = n ++ String.mk (List.replicate k '_')) ?_ ?_ name
  · intro x hx ih
    obtain ⟨k, hk⟩ := ih
    refine ⟨k + 1, ?_⟩
    rw [disambiguate, if_pos hx, hk]
    apply String.ext
    simp [String.data_append, List.replicate_succ]
  · intro x hx
    refine ⟨0, ?_⟩
    rw [disambiguate, if_neg hx]
    apply String.ext
    simp [String.data_append]

theorem classNameLoop_length : ∀ (rest : List String) (i : Nat) (seen : List String),
    (classNameLoop rest i seen).length = rest.length := by
  intro rest
  induction rest with
  | nil => intro i seen; rfl
  | cons a t ih => intro i seen; simp [classNameLoop, ih]

theorem classNameLoop_getD : ∀ (rest : List String) (i : Nat) (seen : List String)
    (j : Nat), j < rest.length →
    ∃ k, (classNameLoop rest i seen).getD j "" =
      renameBase (rest.getD j "") (i + j) ++ String.mk (List.replicate k '_') := by
  intro rest
  induction rest with
  | nil => intro i seen j hj; simp at hj
  | cons a t ih =>
    intro i seen j hj
    cases j with
    | zero =>
      simpa [classNameLoop] using disambiguate_underscores seen (renameBase a i)
    | succ j2 =>
      have h2 := ih (i + 1) (disambiguate seen (renameBase a i) :: seen) j2
        (by simpa using Nat.lt_of_succ_lt_succ hj)
      obtain ⟨k, hk⟩ := h2
      refine ⟨k, ?_⟩
      have harith : i + 1 + j2 = i + (j2 + 1) := by omega
      simpa [classNameLoop, harith] using hk

theorem classNameLoop_fresh_nodup : ∀ (rest : List String) (i : Nat)
    (seen : List String),
    (∀ x ∈ classNameLoop rest i seen, x ∉ seen) ∧ (classNameLoop rest i seen).Nodup := by
  intro rest
  induction rest with
  | nil => intro i seen; simp [classNameLoop]
  | cons a t ih =>
    intro i seen
    constructor
    · intro x hx
      simp only [classNameLoop, List.mem_cons] at hx
      rcases hx with rfl | hx
      · exact disambiguate_not_mem seen _
      · have h2 := (ih (i + 1) (disambiguate seen (renameBase a i) :: seen)).1 x hx
        intro hmem
        exact h2 (List.mem_cons_of_mem _ hmem)
    · simp only [classNameLoop, List.nodup_cons]
      constructor
      · intro hmem
        exact (ih (i + 1) (disambiguate seen (renameBase a i) :: seen)).1 _ hmem
          (List.mem_cons_self _ _)
      · exact (ih _ _).2

theorem popUntilMatch_not_mem (left : Char) : ∀ (stack : List Char),
    left ∉ stack → popUntilMatch left stack = .error () := by
  intro stack
  induction stack with
  | nil => intro _; rfl
  | cons top rest ih =>
    intro h
    have h1 : ¬(top = left) := by
      rintro rfl
      exact h (List.mem_cons_self _ _)
    simp only [popUntilMatch, if_neg h1]
    exact ih (fun hm => h (List.mem_cons_of_mem _ hm))

set_option maxRecDepth 4096 in
theorem uTail4_small : ∀ n, n < 256 → uTail4B (padStart4 (toHexStr n)) = true := by decide

theorem uTail4_shape {l : List Char} (h : uTail4B l = true) :
    ∃ d1 d2 d3 d4, l = [d1, d2, d3, d4] ∧ isHexB d1 = true ∧ isHexB d2 = true ∧
      isHexB d3 = true ∧ isHexB d4 = true := by
  rcases l with _ | ⟨d1, l⟩
  · simp [uTail4B] at h
  rcases l with _ | ⟨d2, l⟩
  · simp [uTail4B] at h
  rcases l with _ | ⟨d3, l⟩
  · simp [uTail4B] at h
  rcases l with _ | ⟨d4, l⟩
  · simp [uTail4B] at h
  rcases l with _ | ⟨d5, l⟩
  · simp only [uTail4B, Bool.and_eq_true] at h
    exact ⟨d1, d2, d3, d4, rfl, h.1.1.1, h.1.1.2, h.1.2, h.2⟩
  · simp [uTail4B] at h

theorem matchesEscapeClass_lt_256 {n : Nat} (h : matchesEscapeClass n = true) :
    n < 256 := by
  simp only [matchesEscapeClass, Bool.or_eq_true, Bool.and_eq_true, beq_iff_eq,
    decide_eq_true_eq] at h
  omega

theorem safeCharB_of_not_matched {c : Char} (h : matchesEscapeClass c.toNat = false) :
    safeCharB c = true := by
  simp only [matchesEscapeClass, Bool.or_eq_false_iff, Bool.and_eq_false_iff,
    beq_eq_false_iff_ne, ne_eq, decide_eq_false_iff_not, not_le] at h
  simp only [safeCharB, Bool.and_eq_true, Bool.not_eq_true', beq_eq_false_iff_ne,
    ne_eq, decide_eq_false_iff_not, not_le, Bool.not_eq_true, Bool.and_eq_false_iff,
    decide_eq_false_iff_not]
  omega

theorem wellEscapedB_escapeChar_append (c : Char) (rest : List Char)
    (h : wellEscapedB rest = true) : wellEscapedB (escapeChar c ++ rest) = true := by
  by_cases hm : matchesEscapeClass c.toNat = true
  · by_cases h1 : c = '"'
    · subst h1; simp [escapeChar, hm, wellEscapedB, h]
    by_cases h2 : c = '\\'
    · subst h2; simp [escapeChar, hm, wellEscapedB, h]
    by_cases h3 : c = Char.ofNat 8
    · subst h3; simp [escapeChar, hm, h1, h2, wellEscapedB, h]
    by_cases h4 : c = Char.ofNat 12
    · subst h4; simp [escapeChar, hm, h1, h2, h3, wellEscapedB, h]
    by_cases h5 : c = '\n'
    · subst h5; simp [escapeChar, hm, h1, h2, h3, h4, wellEscapedB, h]
    by_cases h6 : c = '\r'
    · subst h6; simp [escapeChar, hm, h1, h2, h3, h4, h5, wellEscapedB, h]
    by_cases h7 : c = '\t'
    · subst h7; simp [escapeChar, hm, h1, h2, h3, h4, h5, h6, wellEscapedB, h]
    · have hn : c.toNat < 256 := matchesEscapeClass_lt_256 hm
      obtain ⟨d1, d2, d3, d4, hds, hh1, hh2, hh3, hh4⟩ :=
        uTail4_shape (uTail4_small c.toNat hn)
      simp [escapeChar, hm, h1, h2, h3, h4, h5, h6, h7, hds, wellEscapedB,
        hh1, hh2, hh3, hh4, h]
  · have hm2 : matchesEscapeClass c.toNat = false := by
      simpa using hm
    have hc : ¬(c = '\\') := by
      rintro rfl
      simp [matchesEscapeClass] at hm2
    have he : escapeChar c ++ rest = c :: rest := by
      simp [escapeChar, hm2]
    rw [he, wellEscapedB.eq_def]
    simp only [if_neg hc]
    rw [safeCharB_of_not_matched hm2, h]
    rfl

/-! ## Claims -/

/-- C10: for every input string, the Java string-literal rendering produces
an output that begins and ends with a double quote and whose interior is a
sequence of tokens, each a safe plain character (not a quote, not a
backslash, not in U+0000..U+001F or U+007F..U+00FF) or a backslash escape
(a named escape or a `\uXXXX` escape with four hexadecimal digits), so
arbitrary documentation text cannot terminate or corrupt the literal. -/
theorem c10_java_string_literal_wellformed (input : String) :
    (toJavaStringLiteral input).data = '"' :: (escapeInterior input ++ ['"']) ∧
    wellEscapedB (escapeInterior input) = true := by
  constructor
  · simp [toJavaStringLiteral, String.data_append]
  · have hall : ∀ l : List Char, wellEscapedB (l.flatMap escapeChar) = true := by
      intro l
      induction l with
      | nil => rfl
      | cons c t ih =>
        rw [List.flatMap_cons]
        exact wellEscapedB_escapeChar_append c _ ih
    simpa [escapeInterior] using hall input.data

/-- C9: for a struct with zero fields, no `Builder_At` stage interface is
emitted, the `Builder_Done` interface is still emitted with `build()` as its
only declared member, and the declared return type of the static `builder()`
factory is `Builder_Done`, so `build()` is immediately available on the value
`builder()` returns. -/
theorem c9_zero_fields_builder (rm : RecordMap) (pkg className : String) :
    builderAtInterfaces rm pkg [] = [] ∧
    builderFactoryRetType [] = "Builder_Done" ∧
    builderDoneLines className =
      ["public interface Builder_Done \x7b\n", className ++ " build();\n",
       "\x7d\n\n"] :=
  ⟨rfl, rfl, rfl⟩

/-- C5 counterexample: for an optional of string at the top level of a setter
parameter, the coercion expression is `x.map((_e) -> _e)`; it contains no
`requireNonNull` assertion on the unwrapped value, contradicting the claim
that optionals apply a non-null assertion to the unwrapped value. -/
theorem c5_counterexample :
    toFrozenExpression "" "x" (.optional (.primitive .string)) .canBeNull "_e" =
      "x.map(\n(_e) -> _e\n)" ∧
    hasSubstring "requireNonNull".data
      (toFrozenExpression "" "x" (.optional (.primitive .string)) .canBeNull
        "_e").data = false := by
  constructor
  · rfl
  · decide

/-- C5 (amended): the optional case recurses with nullability never-null, so
no non-null assertion is applied to the unwrapped value: for an optional of
any primitive or of a record the coercion expression is the plain
`inputExpr.map((it) -> it)`; under never-null, primitives and records pass
through unchanged; a record at the top level of a setter parameter (can be
null) gets a non-null assertion only. -/
theorem c5_amended_optional_never_null (pkg e it : String) :
    (∀ p : Primitive,
      toFrozenExpression pkg e (.optional (.primitive p)) .canBeNull it =
        e ++ ".map(\n(" ++ it ++ ") -> " ++ it ++ "\n)") ∧
    (∀ k : String,
      toFrozenExpression pkg e (.optional (.record k)) .canBeNull it =
        e ++ ".map(\n(" ++ it ++ ") -> " ++ it ++ "\n)") ∧
    (∀ p : Primitive, toFrozenExpression pkg e (.primitive p) .neverNull it = e) ∧
    (∀ k : String, toFrozenExpression pkg e (.record k) .neverNull it = e) ∧
    (∀ k : String, toFrozenExpression pkg e (.record k) .canBeNull it =
      "java.util.Objects.requireNonNull(" ++ e ++ ")") := by
  refine ⟨fun p => ?_, fun k => rfl, fun p => ?_, fun k => rfl, fun k => rfl⟩
  · cases p <;> rfl
  · cases p <;> rfl

/-- C2: in the zero-argument private constructor producing the DEFAULT
singleton, a field whose recursion marker is "hard" is initialized to the
null sentinel and every other field to the default-value expression for its
type; and the public accessor of a "hard" field returns the stored slot when
it is not null and the default-value expression otherwise, while accessors
of non-hard fields return the stored slot unconditionally. -/
theorem c2_default_ctor_and_getter (rm : RecordMap) (pkg : String) (f : Field) :
    (f.isRecursive = .hard →
      defaultCtorFieldLine rm pkg f =
        "this." ++ structFieldToJavaName pkg f.name ++ " = null;\n" ∧
      getterBlockLines rm pkg f =
        [commentify [docToCommentText f.doc],
         "public " ++ getJavaType rm pkg f.type .frozen false ++ " " ++
           structFieldToJavaName pkg f.name ++ "() \x7b\n",
         "if (this." ++ structFieldToJavaName pkg f.name ++ " != null) \x7b\n",
         "return this." ++ structFieldToJavaName pkg f.name ++ ";\n",
         "\x7d else \x7b\n",
         "return " ++ getDefaultExpression rm pkg f.type ++ ";\n",
         "\x7d\n",
         "\x7d\n\n"]) ∧
    (f.isRecursive ≠ .hard →
      defaultCtorFieldLine rm pkg f =
        "this." ++ structFieldToJavaName pkg f.name ++ " = " ++
          getDefaultExpression rm pkg f.type ++ ";\n" ∧
      getterBlockLines rm pkg f =
        [commentify [docToCommentText f.doc],
         "public " ++ getJavaType rm pkg f.type .frozen false ++ " " ++
           structFieldToJavaName pkg f.name ++ "() \x7b\n",
         "return this." ++ structFieldToJavaName pkg f.name ++ ";\n",
         "\x7d\n\n"]) := by
  constructor
  · intro h
    exact ⟨by simp [defaultCtorFieldLine, h], by simp [getterBlockLines, h]⟩
  · intro h
    exact ⟨by simp [defaultCtorFieldLine, h], by simp [getterBlockLines, h]⟩

/-- Witness for C2 at concrete fields: a "hard" recursive field of struct
type gets the null sentinel, a plain int32 field gets the literal zero
default. -/
theorem c2_witness :
    defaultCtorFieldLine rmFoo "" fieldHardR = "this.r = null;\n" ∧
    defaultCtorFieldLine rmFoo "" fieldA = "this.a = 0;\n" := by
  constructor
  · exact (((c2_default_ctor_and_getter rmFoo "" fieldHardR).1 rfl).1).trans (by rfl)
  · exact (((c2_default_ctor_and_getter rmFoo "" fieldA).2 (by decide)).1).trans (by rfl)

/-- C1 counterexample: for a struct declaring field "a" with number 2 and
field "b" with number 1, the static block registers "a" (number 2) before
"b" (number 1) — the fields are iterated in name order, so the sequence of
field numbers passed to successive `addField` calls is `[2, 1]`, which is
not strictly increasing. -/
theorem c1_counterexample :
    structAddFieldNumberSeq [fieldA, fieldB] = [2, 1] ∧
    ¬ List.Chain' (fun a b : Nat => a < b)
        (structAddFieldNumberSeq [fieldA, fieldB]) ∧
    (structStaticBlockLines rmFoo "" [fieldA, fieldB] []).get? 4 = some "2,\n" ∧
    (structStaticBlockLines rmFoo "" [fieldA, fieldB] []).get? 16 = some "1,\n" := by
  have h1 : structAddFieldNumberSeq [fieldA, fieldB] = [2, 1] := rfl
  refine ⟨h1, ?_, rfl, rfl⟩
  rw [h1]
  intro h
  rw [List.chain'_cons] at h
  exact absurd h.1 (by omega)

/-- C1 (amended): the static serializer-initialization block registers the
struct's fields in lexicographic field-name order — the same sorted order
used for all struct emission — not in numeric field-number order: the wire
names of successive `addField` calls are sorted, and the registered numbers
are a permutation of the declared fields' numbers. -/
theorem c1_amended_addField_name_order (fields : List Field) :
    List.Sorted (fun a b : String => lexLe a.data b.data = true)
      (structAddFieldWireNames fields) ∧
    (structAddFieldNumberSeq fields).Perm (fields.map (fun f => f.number)) := by
  constructor
  · exact List.Pairwise.map _ (fun a b h => h) (sortFields_sorted fields)
  · exact (sortFields_perm fields).map (fun f => f.number)

/-- C4: fields are sorted lexicographically by declared name before any
emission (the sorted list is sorted under the name comparison and is a
permutation of the declared fields); in particular a struct declaring "b"
then "a" emits the stage for "a" first, with `setA` returning the stage for
"b" and `setB` returning `Builder_Done`. -/
theorem c4_fields_sorted_by_name :
    (∀ fields : List Field,
      List.Sorted (fun a b => fieldLe a b = true) (sortFields fields) ∧
      (sortFields fields).Perm fields) ∧
    sortFields [fieldB, fieldA] = [fieldA, fieldB] ∧
    (builderAtInterfaces rmFoo "" (sortFields [fieldB, fieldA])).map
      (fun s => s.interfaceName) = ["Builder_AtA", "Builder_AtB"] ∧
    (builderAtInterfaces rmFoo "" (sortFields [fieldB, fieldA])).map
      (fun s => s.setterName) = ["setA", "setB"] ∧
    (builderAtInterfaces rmFoo "" (sortFields [fieldB, fieldA])).map
      (fun s => s.retType) = ["Builder_AtB", "Builder_Done"] := by
  exact ⟨fun fields => ⟨sortFields_sorted fields, sortFields_perm fields⟩,
    rfl, rfl, rfl, rfl⟩

/-- C3: for a struct with N sorted fields, exactly N stage interfaces are
emitted plus the one `Builder_Done` interface (N + 1 interface types); for
every index i with i + 1 < N, stage i's single setter's declared return type
is stage i + 1's interface name; the last stage's setter returns
`Builder_Done`; and `Builder_Done` declares only the `build()` method
returning the struct type. -/
theorem c3_stage_chain (rm : RecordMap) (pkg : String) (sortedFields : List Field) :
    (builderAtInterfaces rm pkg sortedFields).length = sortedFields.length ∧
    (∀ i (h : i + 1 < (builderAtInterfaces rm pkg sortedFields).length),
      ((builderAtInterfaces rm pkg sortedFields).get
          ⟨i, Nat.lt_of_succ_lt h⟩).retType =
        ((builderAtInterfaces rm pkg sortedFields).get ⟨i + 1, h⟩).interfaceName) ∧
    (sortedFields ≠ [] →
      ((builderAtInterfaces rm pkg sortedFields).getD (sortedFields.length - 1)
        dummyStage).retType = "Builder_Done") ∧
    (∀ className, builderDoneLines className =
      ["public interface Builder_Done \x7b\n", className ++ " build();\n",
       "\x7d\n\n"]) := by
  refine ⟨List.length_mapIdx, ?_, ?_, fun _ => rfl⟩
  · intro i h
    have hlen : (builderAtInterfaces rm pkg sortedFields).length =
        sortedFields.length := List.length_mapIdx
    have hi1 : i + 1 < sortedFields.length := hlen ▸ h
    have hi : i < sortedFields.length := Nat.lt_of_succ_lt hi1
    have hnext : i < sortedFields.length - 1 := by omega
    simp only [List.get_eq_getElem, builderAtInterfaces, List.getElem_mapIdx]
    simp only [if_pos hnext, List.get?_eq_getElem?, List.getElem?_eq_getElem hi1]
  · intro hne
    have hlen0 : sortedFields.length ≠ 0 := by
      simpa [List.length_eq_zero] using hne
    have hlt : sortedFields.length - 1 <
        (builderAtInterfaces rm pkg sortedFields).length := by
      have : (builderAtInterfaces rm pkg sortedFields).length =
          sortedFields.length := List.length_mapIdx
      omega
    rw [List.getD_eq_getElem _ _ hlt]
    simp only [builderAtInterfaces, List.getElem_mapIdx]
    simp [lt_irrefl]

/-- Witness for C3 at a concrete two-field struct: stage 0's setter returns
stage 1's interface, and the last stage's setter returns `Builder_Done`. -/
theorem c3_witness :
    ((builderAtInterfaces rmFoo "" [fieldA, fieldB]).get
        ⟨0, Nat.lt_of_succ_lt (by decide)⟩).retType =
      ((builderAtInterfaces rmFoo "" [fieldA, fieldB]).get ⟨1, by decide⟩).interfaceName ∧
    ((builderAtInterfaces rmFoo "" [fieldA, fieldB]).getD 1 dummyStage).retType =
      "Builder_Done" :=
  ⟨(c3_stage_chain rmFoo "" [fieldA, fieldB]).2.1 0 (by decide),
   (c3_stage_chain rmFoo "" [fieldA, fieldB]).2.2.1 (List.cons_ne_nil _ _)⟩

/-- C6: for a keyed array whose key path is the single field "id" of a
struct item type, the frozen-flavor type expression is the keyed-list
container parameterized by the item's qualified class name and
java.lang.Integer, and the serializer expression is the keyed-list
serializer constructor receiving the item's serializer, the literal path
label "id", and an accessor lambda calling the `id` accessor. -/
theorem c6_keyed_array (rm : RecordMap) (k : String)
    (h : (rm k).recordType = .struct) :
    getJavaType rm "" (keyedArrayOf k) .frozen false =
      "build.skir.KeyedList<" ++ getClassNameQualified "" (rm k) ++
        ", java.lang.Integer>" ∧
    getSerializerExpression rm "" (keyedArrayOf k) =
      "build.skir.internal.ListSerializerKt.keyedListSerializer(\n" ++
        getClassNameQualified "" (rm k) ++
        ".SERIALIZER,\n\"id\",\n(it) -> it.id()\n)" := by
  have hid : structFieldToJavaName "" "id" = "id" := rfl
  constructor
  · apply String.ext
    simp [keyedArrayOf, getJavaType, h, String.data_append]
  · apply String.ext
    simp [keyedArrayOf, getSerializerExpression, h, hid, jsJoin, String.data_append]

/-- Witness for C6 at a concrete record map sending every key to a top-level
struct `Foo` of module `structs.skir`. -/
theorem c6_witness :
    getJavaType rmFoo "" (keyedArrayOf "Foo") .frozen false =
      "build.skir.KeyedList<" ++ getClassNameQualified "" (rmFoo "Foo") ++
        ", java.lang.Integer>" ∧
    getSerializerExpression rmFoo "" (keyedArrayOf "Foo") =
      "build.skir.internal.ListSerializerKt.keyedListSerializer(\n" ++
        getClassNameQualified "" (rmFoo "Foo") ++
        ".SERIALIZER,\n\"id\",\n(it) -> it.id()\n)" :=
  c6_keyed_array rmFoo "Foo" rfl

/-- C7: in the layout engine, from any state whose next line trims to a
non-empty line starting with a closing bracket whose matching opening marker
is nowhere on the context stack, the remaining run of the line loop throws
(returns an error); and an error of the line loop propagates to
`joinLinesAndFixFormatting`, which then produces no output. -/
theorem c7_layout_mismatch_aborts :
    (∀ (stack acc rawLine : List Char) (rest : List (List Char)) (fc : Char),
      (jsTrim rawLine).head? = some fc →
      isClosingBracket fc = true →
      getMatchingLeftBracket fc ∉ stack →
      processLines stack acc (rawLine :: rest) = .error ()) ∧
    (∀ code : String,
      processLines [] [] (splitOnChar '\n' code.data) = .error () →
      joinLinesAndFixFormatting code = .error ()) := by
  constructor
  · intro stack acc rawLine rest fc h1 h2 h3
    obtain ⟨t, hline⟩ : ∃ t, jsTrim rawLine = fc :: t := by
      cases hl : jsTrim rawLine with
      | nil => rw [hl] at h1; simp at h1
      | cons c t =>
        rw [hl] at h1
        simp only [List.head?_cons, Option.some.injEq] at h1
        exact ⟨t, by rw [h1]⟩
    have hpl : processLine stack acc rawLine = .error () := by
      simp only [processLine, hline, h2, if_true,
        popUntilMatch_not_mem (getMatchingLeftBracket fc) stack h3]
    simp [processLines, hpl]
  · intro code h
    simp [joinLinesAndFixFormatting, h]

/-- Witness for C7: a lone closing curly bracket line with an empty context
stack makes the line loop, and the whole layout pass, abort. -/
theorem c7_witness :
    processLines [] [] [[Char.ofNat 125]] = Except.error () ∧
    joinLinesAndFixFormatting (String.mk [Char.ofNat 125]) = Except.error () :=
  ⟨c7_layout_mismatch_aborts.1 [] [] [Char.ofNat 125] [] (Char.ofNat 125)
      rfl rfl (List.not_mem_nil _),
   c7_layout_mismatch_aborts.2 (String.mk [Char.ofNat 125]) rfl⟩

/-- C8 counterexample: "FooWrapper" ends in "Wrapper", so the claim requires
it to be renamed to "FooWrapper_"; but the source's rename condition is the
regex `[^a-z]Wrapper$`, which does not match a name whose "Wrapper" suffix
is preceded by a lowercase letter, so the chain `["FooWrapper"]` produces
the part "FooWrapper" unrenamed. -/
theorem c8_counterexample :
    "Wrapper".data.isSuffixOf "FooWrapper".data = true ∧
    renameBaseSpec "FooWrapper" 0 = "FooWrapper_" ∧
    classNameParts ["FooWrapper"] = ["FooWrapper"] ∧
    classNameParts ["FooWrapper"] ≠ ["FooWrapper_"] := by
  have hd : ∀ s : String, disambiguate [] s = s := fun s => by
    rw [disambiguate, if_neg (List.not_mem_nil s)]
  have hr : renameBase "FooWrapper" 0 = "FooWrapper" := rfl
  have hparts : classNameParts ["FooWrapper"] = ["FooWrapper"] := by
    simp [classNameParts, classNameLoop, hr, hd]
  refine ⟨by decide, rfl, hparts, ?_⟩
  rw [hparts]
  decide

/-- C8 (amended): walking the ancestry chain, each part is the ancestor's
name, renamed by appending one underscore when the name is `Kind`,
`Builder`, matches the end pattern "non-lowercase character followed by
Wrapper" (so bare "Wrapper" and names like "FooWrapper" are not renamed), or
at chain position zero is `Constants` or `Methods`; and underscores are then
appended repeatedly until the name is unique within the chain, so the parts
list has the chain's length, each part is the (possibly renamed) base name
followed by some number of underscores, and the parts are pairwise
distinct. -/
theorem c8_amended_class_name_chain (ancestors : List String) :
    (classNameParts ancestors).length = ancestors.length ∧
    (∀ j, j < ancestors.length →
      ∃ k, (classNameParts ancestors).getD j "" =
        renameBase (ancestors.getD j "") j ++ String.mk (List.replicate k '_')) ∧
    (classNameParts ancestors).Nodup := by
  refine ⟨classNameLoop_length ancestors 0 [], ?_,
    (classNameLoop_fresh_nodup ancestors 0 []).2⟩
  intro j hj
  simpa using classNameLoop_getD ancestors 0 [] j hj

/-- Witness for C8 (amended) at the chain `["Kind"]`: its single part is
`renameBase "Kind" 0` followed by some number of underscores. -/
theorem c8_witness :
    ∃ k, (classNameParts ["Kind"]).getD 0 "" =
      renameBase ((["Kind"] : List String).getD 0 "") 0 ++
        String.mk (List.replicate k '_') :=
  (c8_amended_class_name_chain ["Kind"]).2.1 0 (by decide)

end SkirJavaGen
